import Mathlib

/-!
Shallow embedding of the deterministic core of `ai_course_assignment`:
the product-line parser and category classifier of
`assignment_10/convert_products.py`, and the batched embedding-upload and
filtered-similarity-search pipeline of `assignment_10/assignment_10.py`.
Strings are modelled as `List Char`; Python floats produced by the parser
are always integer-valued (digits with separators stripped), so prices are
modelled as integers.
-/

namespace AICourse

/-- Python `str.lower()` restricted to the Latin/Vietnamese alphabet used by
the product catalog: ASCII A–Z plus the Vietnamese uppercase letters. -/
def pyLowerChar (c : Char) : Char :=
  if 'A' ≤ c && c ≤ 'Z' then Char.ofNat (c.toNat + 32)
  else match c with
  | 'À' => 'à' | 'Á' => 'á' | 'Ả' => 'ả' | 'Ã' => 'ã' | 'Ạ' => 'ạ'
  | 'Ă' => 'ă' | 'Ằ' => 'ằ' | 'Ắ' => 'ắ' | 'Ẳ' => 'ẳ' | 'Ẵ' => 'ẵ' | 'Ặ' => 'ặ'
  | 'Â' => 'â' | 'Ầ' => 'ầ' | 'Ấ' => 'ấ' | 'Ẩ' => 'ẩ' | 'Ẫ' => 'ẫ' | 'Ậ' => 'ậ'
  | 'Đ' => 'đ'
  | 'È' => 'è' | 'É' => 'é' | 'Ẻ' => 'ẻ' | 'Ẽ' => 'ẽ' | 'Ẹ' => 'ẹ'
  | 'Ê' => 'ê' | 'Ề' => 'ề' | 'Ế' => 'ế' | 'Ể' => 'ể' | 'Ễ' => 'ễ' | 'Ệ' => 'ệ'
  | 'Ì' => 'ì' | 'Í' => 'í' | 'Ỉ' => 'ỉ' | 'Ĩ' => 'ĩ' | 'Ị' => 'ị'
  | 'Ò' => 'ò' | 'Ó' => 'ó' | 'Ỏ' => 'ỏ' | 'Õ' => 'õ' | 'Ọ' => 'ọ'
  | 'Ô' => 'ô' | 'Ồ' => 'ồ' | 'Ố' => 'ố' | 'Ổ' => 'ổ' | 'Ỗ' => 'ỗ' | 'Ộ' => 'ộ'
  | 'Ơ' => 'ơ' | 'Ờ' => 'ờ' | 'Ớ' => 'ớ' | 'Ở' => 'ở' | 'Ỡ' => 'ỡ' | 'Ợ' => 'ợ'
  | 'Ù' => 'ù' | 'Ú' => 'ú' | 'Ủ' => 'ủ' | 'Ũ' => 'ũ' | 'Ụ' => 'ụ'
  | 'Ư' => 'ư' | 'Ừ' => 'ừ' | 'Ứ' => 'ứ' | 'Ử' => 'ử' | 'Ữ' => 'ữ' | 'Ự' => 'ự'
  | 'Ỳ' => 'ỳ' | 'Ý' => 'ý' | 'Ỷ' => 'ỷ' | 'Ỹ' => 'ỹ' | 'Ỵ' => 'ỵ'
  | _ => c

/-- `title.lower()` on the character-list model. -/
def pyLower (cs : List Char) : List Char := cs.map pyLowerChar

/-- Python `needle in hay` substring membership on character lists. -/
def subOf (n : List Char) : List Char → Bool
  | [] => n.isEmpty
  | c :: t => n.isPrefixOf (c :: t) || subOf n t

/-- `any(word in title_lower for word in ws)` from the classifier. -/
def kwAny (tl : List Char) (ws : List (List Char)) : Bool :=
  ws.any (fun w => subOf w tl)

/-- Keyword group for "Áo thun" (first `if` branch). -/
def kwAoThun : List (List Char) := ["áo thun".data, "tshirt".data, "t-shirt".data]

/-- Keyword group for "Quần". -/
def kwQuan : List (List Char) := ["quần".data, "shorts".data, "pants".data]

/-- Keyword group for "Áo polo". -/
def kwPolo : List (List Char) := ["áo polo".data, "polo".data]

/-- Keyword group for "Áo sơ mi". -/
def kwSoMi : List (List Char) := ["áo sơ mi".data, "shirt".data]

/-- Keyword group for "Áo khoác". -/
def kwKhoac : List (List Char) := ["áo khoác".data, "jacket".data, "hoodie".data, "nỉ".data]

/-- Keyword group for "Đồ lót". -/
def kwDoLot : List (List Char) := ["quần lót".data, "trunk".data, "briefs".data]

/-- Keyword group for "Váy". -/
def kwVay : List (List Char) := ["váy".data, "dress".data]

/-- Keyword group for "Áo bra". -/
def kwBra : List (List Char) := ["bra".data, "áo bra".data]

/-- Keyword group for "Legging". -/
def kwLegging : List (List Char) := ["legging".data, "tights".data]

/-- Keyword group for "Tất". -/
def kwTat : List (List Char) := ["tất".data, "socks".data]

/-- The `if`/`elif` keyword chain of `convert_products.py`, applied to the
already lowercased title (`title_lower`). -/
def detCore (tl : List Char) : String :=
  if kwAny tl kwAoThun then "Áo thun"
  else if kwAny tl kwQuan then "Quần"
  else if kwAny tl kwPolo then "Áo polo"
  else if kwAny tl kwSoMi then "Áo sơ mi"
  else if kwAny tl kwKhoac then "Áo khoác"
  else if kwAny tl kwDoLot then "Đồ lót"
  else if kwAny tl kwVay then "Váy"
  else if kwAny tl kwBra then "Áo bra"
  else if kwAny tl kwLegging then "Legging"
  else if kwAny tl kwTat then "Tất"
  else "Khác"

/-- Category of a title: lowercase it, then run the ordered keyword chain
(the default category is "Khác"). -/
def determineCategory (title : List Char) : String :=
  detCore (pyLower title)

/-- The closed set of categories the classifier can assign: ten keyword
categories plus the default. -/
def elevenCategories : List String :=
  ["Áo thun", "Quần", "Áo polo", "Áo sơ mi", "Áo khoác", "Đồ lót",
   "Váy", "Áo bra", "Legging", "Tất", "Khác"]

/-- ASCII whitespace, the characters recognised by `str.strip` and `\s`
on the catalog's input alphabet. -/
def isSpaceChar (c : Char) : Bool :=
  c == ' ' || c == '\t' || c == '\n' || c == '\r' || c == '\x0b' || c == '\x0c'

/-- Characters matched by the price class `[\d.,]`. -/
def isPriceChar (c : Char) : Bool :=
  c.isDigit || c == '.' || c == ','

/-- Python `str.strip()`. -/
def strip (cs : List Char) : List Char :=
  ((cs.dropWhile isSpaceChar).reverse.dropWhile isSpaceChar).reverse

/-- Drop an expected literal from the front of the input, or fail. -/
def dropPre : List Char → List Char → Option (List Char)
  | [], rest => some rest
  | _ :: _, [] => none
  | a :: as, b :: bs => if a = b then dropPre as bs else none

/-- Numeric value of a digit string (most significant digit first). -/
def natOfDigits (ds : List Char) : Nat :=
  ds.foldl (fun n c => 10 * n + (c.toNat - 48)) 0

/-- `float(run.replace(".", "").replace(",", ""))` on a `[\d.,]+` run:
strips the separators and converts; an all-separator run makes `float("")`
raise, modelled as `none`. -/
def priceVal (run : List Char) : Option Nat :=
  let ds := run.filter Char.isDigit
  if ds.isEmpty then none else some (natOfDigits ds)

/-- The literal marker phrase `"Sản phẩm"` tested by `startswith`. -/
def markerCs : List Char := "Sản phẩm".data

/-- The literal `"Sản phẩm "` that opens the regex pattern. -/
def markerSpCs : List Char := "Sản phẩm ".data

/-- The literal `" có giá "` between the title group and the price group. -/
def phraseCs : List Char := " có giá ".data

/-- The literal `"(Giảm"` opening the discount clause. -/
def giamCs : List Char := "(Giảm".data

/-- The literal `"từ"` inside the discount clause. -/
def tuCs : List Char := "từ".data

/-- Captured pieces of a successful match of the pattern
`Sản phẩm (.+?) có giá ([\d.,]+)đ(?:\s*\(Giảm\s*(\d+)%\s*từ\s*([\d.,]+)đ\))?`:
the raw title (group 1), the price run (group 2), and, when the optional
discount clause matched, the percent digits (group 3) and original-price
run (group 4). -/
structure RawParse where
  title : List Char
  priceRun : List Char
  disc : Option (List Char × List Char)
deriving DecidableEq

/-- The optional discount clause `\s*\(Giảm\s*(\d+)%\s*từ\s*([\d.,]+)đ\)`
attempted after the price's `đ`; none of its character classes overlaps
the literal that follows it, so maximal munch is exact. -/
def matchDisc (cs : List Char) : Option (List Char × List Char) :=
  match dropPre giamCs (cs.dropWhile isSpaceChar) with
  | none => none
  | some r2 =>
    let r3 := r2.dropWhile isSpaceChar
    let dts := r3.takeWhile Char.isDigit
    if dts.isEmpty then none
    else
      match r3.drop dts.length with
      | '%' :: r5 =>
        match dropPre tuCs (r5.dropWhile isSpaceChar) with
        | none => none
        | some r7 =>
          let r8 := r7.dropWhile isSpaceChar
          let orun := r8.takeWhile isPriceChar
          if orun.isEmpty then none
          else
            match r8.drop orun.length with
            | 'đ' :: ')' :: _ => some (dts, orun)
            | _ => none
      | _ => none

/-- `([\d.,]+)đ` followed by the optional discount group: the price run is
a maximal nonempty `[\d.,]` run (the class excludes `đ`, so greedy matching
cannot backtrack), then the discount clause is attempted; its failure
leaves the overall match successful with no discount. -/
def matchTail (cs : List Char) : Option (List Char × Option (List Char × List Char)) :=
  let run := cs.takeWhile isPriceChar
  if run.isEmpty then none
  else
    match cs.drop run.length with
    | 'đ' :: rest => some (run, matchDisc rest)
    | _ => none

/-- The lazy title group `(.+?)`: the title is grown one character at a
time (never across a newline, which `.` does not match), and after each
extension the literal `" có giá "` plus the price tail is tried; the first
success wins, matching the regex engine's lazy backtracking order. -/
def findTitle (acc : List Char) : List Char → Option RawParse
  | [] => none
  | c :: rest =>
    if c = '\n' then none
    else
      let acc2 := acc ++ [c]
      match dropPre phraseCs rest with
      | some r2 =>
        match matchTail r2 with
        | some (pr, d) => some ⟨acc2, pr, d⟩
        | none => findTitle acc2 rest
      | none => findTitle acc2 rest

/-- `re.search` of the product pattern: try every start position from the
left; at each occurrence of the opening literal `"Sản phẩm "` run the
title/price matcher, falling through to later positions on failure. -/
def reSearch : List Char → Option RawParse
  | [] => none
  | c :: rest =>
    match dropPre markerSpCs (c :: rest) with
    | some r =>
      match findTitle [] r with
      | some res => some res
      | none => reSearch rest
    | none => reSearch rest

/-- Digits of `n`, zero-padded on the left to width `w` (Python `f"{n:0wd}"`). -/
def zeroPad (w n : Nat) : String :=
  let ds := Nat.toDigits 10 n
  String.mk (List.replicate (w - ds.length) '0' ++ ds)

/-- `f"prod_{product_id:04d}"`. -/
def prodId (n : Nat) : String := "prod_" ++ zeroPad 4 n

/-- Thousands grouping on a reversed digit list: a comma after every third
digit that is followed by more digits. -/
def commaChunk : List Char → List Char
  | a :: b :: c :: d :: rest => a :: b :: c :: ',' :: commaChunk (d :: rest)
  | l => l

/-- Python `f"{n:,.0f}"` for the integer-valued prices of the catalog. -/
def commaFmt (n : Nat) : String :=
  String.mk ((commaChunk (Nat.toDigits 10 n).reverse).reverse)

/-- One parsed catalog item, the dict built by `parse_products_from_text`.
Prices are integer-valued floats in the source; they are modelled as
integers. -/
structure Product where
  id : String
  title : String
  category : String
  price : Int
  original_price : Int
  discount_percent : Int
  short_description : String
  description : String
deriving DecidableEq

/-- Build the product dict from the matched pieces: `cp` is the converted
current price, `op` the original price (equal to `cp` when the discount
clause is absent), `dp` the discount percent (0 when absent). -/
def mkProduct (pid : Nat) (title : List Char) (cp op dp : Nat) : Product :=
  let cat := determineCategory title
  { id := prodId pid
    title := String.mk title
    category := cat
    price := (cp : Int)
    original_price := (op : Int)
    discount_percent := (dp : Int)
    short_description := String.mk title
    description := "Sản phẩm " ++ String.mk title ++ " thuộc danh mục " ++ cat
      ++ " với giá " ++ commaFmt cp ++ "đ" }

/-- Outcome of one loop iteration: the line is silently skipped, a record
is emitted (and the id counter advances), or an uncaught `ValueError` from
`float("")` aborts the whole run. -/
inductive LineOutcome where
  | skip
  | emit (p : Product)
  | crash
deriving DecidableEq

/-- The body of one parser-loop iteration on the already stripped line:
gate on the `startswith("Sản phẩm")` check, search the pattern, and
convert the captured groups. -/
def processStripped (pid : Nat) (l : List Char) : LineOutcome :=
  if !l.isEmpty && markerCs.isPrefixOf l then
    match reSearch l with
    | none => .skip
    | some r =>
      match priceVal r.priceRun with
      | none => .crash
      | some cp =>
        match r.disc with
        | none => .emit (mkProduct pid (strip r.title) cp cp 0)
        | some (dts, orun) =>
          match priceVal orun with
          | none => .crash
          | some op => .emit (mkProduct pid (strip r.title) cp op (natOfDigits dts))
  else .skip

/-- One iteration of the parser loop: `line = line.strip()`, then the
gated match-and-convert body. -/
def processLine (pid : Nat) (line : List Char) : LineOutcome :=
  processStripped pid (strip line)

/-- A line "matches the grammar": after stripping it is nonempty, starts
with the marker phrase, and the detailed pattern matches. -/
def grammarMatch (line : List Char) : Bool :=
  !(strip line).isEmpty && markerCs.isPrefixOf (strip line)
    && (reSearch (strip line)).isSome

/-- The parser loop over all lines, threading the id counter, which
advances exactly when a record is emitted; an uncaught conversion error
aborts the run with no result. -/
def runAux (pid : Nat) : List (List Char) → Option (List Product)
  | [] => some []
  | l :: ls =>
    match processLine pid l with
    | .skip => runAux pid ls
    | .crash => none
    | .emit p =>
      match runAux (pid + 1) ls with
      | none => none
      | some ps => some (p :: ps)

/-- `parse_products_from_text` on a given list of input lines. -/
def parse_products_from_text (lines : List (List Char)) : Option (List Product) :=
  runAux 1 lines

/-! ## Search path (`assignment_10.py`, `search_similar_products` + `main`) -/

/-- One store match as consumed by the client-side filter: the
similarity score and the metadata fields the filter reads. Scores are
modelled as integers; only their order matters here. -/
structure SMatch where
  score : Int
  mTitle : String
  mCategory : String
  mPrice : Int
deriving DecidableEq

/-- The post-filter of `main`: category equality (or the
`"All Categories"` sentinel) and inclusive price-range bounds. -/
def passesFilter (selCat : String) (lo hi : Int) (m : SMatch) : Bool :=
  (selCat == "All Categories" || m.mCategory == selCat) &&
    (decide (lo ≤ m.mPrice) && decide (m.mPrice ≤ hi))

/-- The filtering loop of `main`: walk the store's matches in order,
append each match passing the filter, and break as soon as the collected
list reaches `top_k` (the break test runs after the append). -/
def filterTopK (p : SMatch → Bool) : Nat → List SMatch → List SMatch
  | _, [] => []
  | k, m :: ms =>
    if p m then
      if k ≤ 1 then [m] else m :: filterTopK p (k - 1) ms
    else filterTopK p k ms

/-- The search path: `main` requests `top_k * 2` nearest neighbours from
the store (via `search_similar_products`) and post-filters them down to at
most `top_k`; `store n` is the store's ranked reply to a `top_k = n`
query. -/
def searchPipeline (store : Nat → List SMatch) (k : Nat) (selCat : String)
    (lo hi : Int) : List SMatch :=
  filterTopK (passesFilter selCat lo hi) k (store (2 * k))

/-! ## Upload path (`assignment_10.py`, `generate_and_upsert_embeddings`) -/

/-- An upsert record: the product id, its embedding vector, and the copied
display metadata. -/
structure UpsertRec where
  id : String
  values : List Int
  mTitle : String
  mCategory : String
  mPrice : Int
  mDescription : String
  mDiscount : Int
deriving DecidableEq

/-- The external vector store's collection: a list of records keyed by id. -/
structure Store where
  vecs : List UpsertRec
deriving DecidableEq

/-- `describe_index_stats()['total_vector_count']`. -/
def Store.count (s : Store) : Nat := s.vecs.length

/-- Insert-or-overwrite of one record by id. -/
def upsertOne (vs : List UpsertRec) (r : UpsertRec) : List UpsertRec :=
  if vs.any (fun x => x.id == r.id) then
    vs.map (fun x => if x.id == r.id then r else x)
  else vs ++ [r]

/-- `index.upsert(vectors=batch)`: insert-or-overwrite each record of the
batch in order. -/
def Store.upsert (s : Store) (batch : List UpsertRec) : Store :=
  ⟨batch.foldl upsertOne s.vecs⟩

/-- The upsert record built for one product: embedding of the rich
description `f"{title} {category} {description}"` plus the metadata
dict; `emb` is the external embedding function. -/
def mkVector (emb : String → List Int) (p : Product) : UpsertRec :=
  { id := p.id
    values := emb (p.title ++ " " ++ p.category ++ " " ++ p.description)
    mTitle := p.title
    mCategory := p.category
    mPrice := p.price
    mDescription := p.description
    mDiscount := p.discount_percent }

/-- Mutable state of the upload loop: the unflushed buffer, the store,
the number of embedding calls made, the number of upsert calls made, the
batches successfully flushed so far, and the number of per-item failures
reported. -/
structure SyncSt where
  buf : List UpsertRec
  store : Store
  embeds : Nat
  upserts : Nat
  batches : List (List UpsertRec)
  errs : Nat
deriving DecidableEq

/-- One iteration of the upload loop for product `p` at position `i`:
attempt the embedding call (`eo i` tells whether it succeeds; a failure
is caught, reported, and skipped), append the vector to the buffer, and
when the buffer has reached 50 attempt an upsert (`uo n` tells whether
the `n`-th upsert call succeeds; an in-loop failure is caught and
reported, and the buffer is left unflushed). -/
def syncStep (emb : String → List Int) (eo : Nat → Bool) (uo : Nat → Bool)
    (i : Nat) (p : Product) (st : SyncSt) : SyncSt :=
  if eo i then
    if 50 ≤ (st.buf ++ [mkVector emb p]).length then
      if uo st.upserts then
        { st with
            buf := []
            store := Store.upsert st.store (st.buf ++ [mkVector emb p])
            embeds := st.embeds + 1
            upserts := st.upserts + 1
            batches := st.batches ++ [st.buf ++ [mkVector emb p]] }
      else
        { st with
            buf := st.buf ++ [mkVector emb p]
            embeds := st.embeds + 1
            upserts := st.upserts + 1
            errs := st.errs + 1 }
    else { st with buf := st.buf ++ [mkVector emb p], embeds := st.embeds + 1 }
  else { st with embeds := st.embeds + 1, errs := st.errs + 1 }

/-- The upload loop over the catalog. -/
def syncLoop (emb : String → List Int) (eo uo : Nat → Bool) :
    Nat → List Product → SyncSt → SyncSt
  | _, [], st => st
  | i, p :: ps, st => syncLoop emb eo uo (i + 1) ps (syncStep emb eo uo i p st)

/-- The end-of-loop flush: `if vectors_to_upsert: index.upsert(...)`.
This final upsert sits outside the per-item `try`, so its failure
propagates out of the function and aborts the run (`none`). -/
def syncFinish (uo : Nat → Bool) (st : SyncSt) : Option SyncSt :=
  if st.buf.isEmpty then some st
  else if uo st.upserts then
    some { st with
             buf := []
             store := Store.upsert st.store st.buf
             upserts := st.upserts + 1
             batches := st.batches ++ [st.buf] }
  else none

/-- `generate_and_upsert_embeddings`: if the store already reports a
positive vector count, return before any embedding work; otherwise run
the loop and flush the final partial batch. -/
def generate_and_upsert_embeddings (emb : String → List Int)
    (eo uo : Nat → Bool) (ps : List Product) (store : Store) : Option SyncSt :=
  if 0 < store.count then
    some { buf := [], store := store, embeds := 0, upserts := 0, batches := [], errs := 0 }
  else
    syncFinish uo (syncLoop emb eo uo 0 ps
      { buf := [], store := store, embeds := 0, upserts := 0, batches := [], errs := 0 })

/-- The upsert records of the embed-successful products, in catalog
order, starting the failure oracle at position `i`. -/
def recsOf (emb : String → List Int) (eo : Nat → Bool) (i : Nat) :
    List Product → List UpsertRec
  | [] => []
  | p :: ps =>
    if eo i then mkVector emb p :: recsOf emb eo (i + 1) ps
    else recsOf emb eo (i + 1) ps

/-- The number of embedding failures over the catalog, starting the
failure oracle at position `i`. -/
def failsOf (eo : Nat → Bool) (i : Nat) : List Product → Nat
  | [] => 0
  | _ :: ps => (if eo i then 0 else 1) + failsOf eo (i + 1) ps

/-! ## Concrete inputs used by counterexamples and witnesses -/

/-- The record the parser emits for the line
`"Sản phẩm X có giá 100đ (Giảm 0% từ 200đ)"`. -/
def cexProductC3 : Product :=
  { id := "prod_0001", title := "X", category := "Khác", price := 100,
    original_price := 200, discount_percent := 0, short_description := "X",
    description := "Sản phẩm X thuộc danh mục Khác với giá 100đ" }

/-- The record the parser emits for the line
`"Sản phẩm Y có giá 100đ (Giảm 150% từ 50đ)"`. -/
def cexProductC8 : Product :=
  { id := "prod_0001", title := "Y", category := "Khác", price := 100,
    original_price := 50, discount_percent := 150, short_description := "Y",
    description := "Sản phẩm Y thuộc danh mục Khác với giá 100đ" }

/-- A one-match store reply used to exercise the search path at concrete
inputs. -/
def sampleStore : Nat → List SMatch :=
  fun _ => [{ score := 9, mTitle := "Áo Thun Gym", mCategory := "Áo thun", mPrice := 299000 }]

/-- A one-record store used to exercise the count-gate at concrete
inputs. -/
def storeOne : Store :=
  ⟨[{ id := "prod_0001", values := [], mTitle := "t", mCategory := "c",
      mPrice := 0, mDescription := "d", mDiscount := 0 }]⟩

/-- A one-item catalog used to exercise the upload path at concrete
inputs. -/
def sampleProduct : Product :=
  { id := "prod_0001", title := "Áo Thun Gym", category := "Áo thun",
    price := 299000, original_price := 299000, discount_percent := 0,
    short_description := "Áo Thun Gym",
    description := "Sản phẩm Áo Thun Gym thuộc danh mục Áo thun với giá 299,000đ" }

/-! ## Sanity checks -/

example : determineCategory "Áo Thun Gym Cotton".data = "Áo thun" := by decide
example : determineCategory "Quần Dài Nam Kaki Excool".data = "Quần" := by decide
example : determineCategory "Combo 3 Quần Lót Nam Trunk Excool".data = "Quần" := by decide
example : determineCategory "xyz".data = "Khác" := by decide
example : commaFmt 329000 = "329,000" := by decide
example : prodId 1 = "prod_0001" := by decide

/-! ## Substring helper lemmas -/

theorem isPrefixOf_eq_true_iff (l₁ l₂ : List Char) :
    l₁.isPrefixOf l₂ = true ↔ ∃ t, l₂ = l₁ ++ t := by
  induction l₁ generalizing l₂ with
  | nil => simp [List.isPrefixOf]
  | cons a as ih =>
    cases l₂ with
    | nil => simp [List.isPrefixOf]
    | cons b bs =>
      simp only [List.isPrefixOf, Bool.and_eq_true, beq_iff_eq, ih, List.cons_append,
        List.cons.injEq]
      constructor
      · rintro ⟨rfl, t, rfl⟩; exact ⟨t, rfl, rfl⟩
      · rintro ⟨t, rfl, rfl⟩; exact ⟨rfl, t, rfl⟩

theorem subOf_eq_true_iff (n h : List Char) :
    subOf n h = true ↔ ∃ s t, h = s ++ n ++ t := by
  induction h with
  | nil =>
    simp only [subOf, List.isEmpty_iff]
    constructor
    · rintro rfl; exact ⟨[], [], rfl⟩
    · rintro ⟨s, t, hst⟩
      rcases List.append_eq_nil.mp (List.append_eq_nil.mp hst.symm).1 with ⟨-, h2⟩
      exact h2
  | cons c t' ih =>
    simp only [subOf, Bool.or_eq_true, isPrefixOf_eq_true_iff, ih]
    constructor
    · rintro (⟨u, hu⟩ | ⟨s, u, rfl⟩)
      · exact ⟨[], u, by simpa using hu⟩
      · exact ⟨c :: s, u, by simp⟩
    · rintro ⟨s, u, hc⟩
      cases s with
      | nil => exact Or.inl ⟨u, by simpa using hc⟩
      | cons d ds =>
        simp only [List.cons_append, List.cons.injEq] at hc
        exact Or.inr ⟨ds, u, hc.2⟩

theorem subOf_append_left (a b h : List Char) (hs : subOf (a ++ b) h = true) :
    subOf a h = true := by
  rw [subOf_eq_true_iff] at hs ⊢
  obtain ⟨s, t, rfl⟩ := hs
  exact ⟨s, b ++ t, by simp⟩

theorem subOf_quan_of_quanlot (tl : List Char)
    (h : subOf "quần lót".data tl = true) : subOf "quần".data tl = true := by
  have e : "quần lót".data = "quần".data ++ " lót".data := by decide
  exact subOf_append_left _ _ _ (e ▸ h)

theorem detCore_mem (tl : List Char) : detCore tl ∈ elevenCategories := by
  unfold detCore
  repeat' split
  all_goals decide

theorem bool_off (b : Bool) (h : ¬(b = true)) : b = false := by
  cases b <;> simp_all

/-! ## Claim theorems: the category classifier -/

/-- C1: category classification is a deterministic pure function of the
title alone, assigning one of eleven categories through an ordered
first-match-wins table (default "Khác"); any title whose lowercase form
contains both an "Áo thun"-group keyword and a "Quần"-group keyword is
assigned "Áo thun", the group checked first. -/
theorem classify_first_match_wins :
    (∀ t, determineCategory t ∈ elevenCategories) ∧
    (∀ t, kwAny (pyLower t) kwAoThun = true → kwAny (pyLower t) kwQuan = true →
      determineCategory t = "Áo thun") := by
  constructor
  · intro t; exact detCore_mem _
  · intro t h1 _
    unfold determineCategory detCore
    simp [h1]

theorem classify_first_match_wins_w :
    determineCategory "áo thun và quần dài".data = "Áo thun" :=
  classify_first_match_wins.2 _ (by decide) (by decide)

/-- C10 counterexample: the title "tshirt quần lót" contains "quần lót"
in lowercase but is classified "Áo thun", not "Quần", because the
"Áo thun" group is checked before the "Quần" group. -/
theorem quanlot_always_quan_cex :
    subOf "quần lót".data (pyLower "tshirt quần lót".data) = true ∧
    determineCategory "tshirt quần lót".data ≠ "Quần" := by decide

/-- C10 amended: a title containing "quần lót" and no "Áo thun"-group
keyword is classified "Quần"; no title containing "quần lót" is ever
classified "Đồ lót"; and "Đồ lót" is assigned exactly when the lowercase
title contains "trunk" or "briefs" and no keyword of the five earlier
groups. -/
theorem dolot_reachability :
    (∀ t, subOf "quần lót".data (pyLower t) = true →
      kwAny (pyLower t) kwAoThun = false → determineCategory t = "Quần") ∧
    (∀ t, subOf "quần lót".data (pyLower t) = true →
      determineCategory t ≠ "Đồ lót") ∧
    (∀ t, determineCategory t = "Đồ lót" ↔
      (kwAny (pyLower t) kwAoThun = false ∧ kwAny (pyLower t) kwQuan = false ∧
       kwAny (pyLower t) kwPolo = false ∧ kwAny (pyLower t) kwSoMi = false ∧
       kwAny (pyLower t) kwKhoac = false ∧
       (subOf "trunk".data (pyLower t) = true ∨
        subOf "briefs".data (pyLower t) = true))) := by
  have hq : ∀ t, subOf "quần lót".data (pyLower t) = true →
      kwAny (pyLower t) kwQuan = true := by
    intro t h
    have := subOf_quan_of_quanlot _ h
    simp [kwAny, kwQuan, this]
  refine ⟨?_, ?_, ?_⟩
  · intro t h h1
    unfold determineCategory detCore
    simp [h1, hq t h]
  · intro t h
    unfold determineCategory detCore
    rcases hb : kwAny (pyLower t) kwAoThun with _ | _ <;>
      simp [hb, hq t h]
  · intro t
    constructor
    · intro h
      unfold determineCategory detCore at h
      by_cases h1 : kwAny (pyLower t) kwAoThun = true
      · rw [if_pos h1] at h; exact absurd h (by decide)
      rw [if_neg h1] at h
      by_cases h2 : kwAny (pyLower t) kwQuan = true
      · rw [if_pos h2] at h; exact absurd h (by decide)
      rw [if_neg h2] at h
      by_cases h3 : kwAny (pyLower t) kwPolo = true
      · rw [if_pos h3] at h; exact absurd h (by decide)
      rw [if_neg h3] at h
      by_cases h4 : kwAny (pyLower t) kwSoMi = true
      · rw [if_pos h4] at h; exact absurd h (by decide)
      rw [if_neg h4] at h
      by_cases h5 : kwAny (pyLower t) kwKhoac = true
      · rw [if_pos h5] at h; exact absurd h (by decide)
      rw [if_neg h5] at h
      by_cases h6 : kwAny (pyLower t) kwDoLot = true
      · refine ⟨bool_off _ h1, bool_off _ h2, bool_off _ h3, bool_off _ h4,
          bool_off _ h5, ?_⟩
        have h6Q := h6
        simp only [kwAny, kwDoLot, List.any_cons, List.any_nil, Bool.or_eq_true]
          at h6Q
        rcases h6Q with hqA | htr | hbr
        · exact absurd (hq t hqA) h2
        · exact Or.inl htr
        · rcases hbr with hbr | hbr
          · exact Or.inr hbr
          · exact absurd hbr (by decide)
      rw [if_neg h6] at h
      exfalso
      by_cases h7 : kwAny (pyLower t) kwVay = true
      · rw [if_pos h7] at h; exact absurd h (by decide)
      rw [if_neg h7] at h
      by_cases h8 : kwAny (pyLower t) kwBra = true
      · rw [if_pos h8] at h; exact absurd h (by decide)
      rw [if_neg h8] at h
      by_cases h9 : kwAny (pyLower t) kwLegging = true
      · rw [if_pos h9] at h; exact absurd h (by decide)
      rw [if_neg h9] at h
      by_cases h10 : kwAny (pyLower t) kwTat = true
      · rw [if_pos h10] at h; exact absurd h (by decide)
      rw [if_neg h10] at h
      exact absurd h (by decide)
    · rintro ⟨h1, h2, h3, h4, h5, h6⟩
      unfold determineCategory detCore
      rw [if_neg (by simp [h1]), if_neg (by simp [h2]), if_neg (by simp [h3]),
        if_neg (by simp [h4]), if_neg (by simp [h5]), if_pos ?_]
      rcases h6 with h | h <;> simp [kwAny, kwDoLot, h]

theorem dolot_reachability_w :
    determineCategory "123 quần lót".data = "Quần" :=
  dolot_reachability.1 _ (by decide) (by decide)

/-! ## Claim theorems: the parser -/

theorem processLine_emit_cases (pid : Nat) (line : List Char) (p : Product)
    (hp : processLine pid line = .emit p) :
    ∃ r cp, reSearch (strip line) = some r ∧ priceVal r.priceRun = some cp ∧
      ((r.disc = none ∧ p = mkProduct pid (strip r.title) cp cp 0) ∨
       (∃ dts orun op, r.disc = some (dts, orun) ∧ priceVal orun = some op ∧
        p = mkProduct pid (strip r.title) cp op (natOfDigits dts))) := by
  unfold processLine processStripped at hp
  split at hp
  · split at hp
    · exact absurd hp (by simp)
    · rename_i r hr
      split at hp
      · exact absurd hp (by simp)
      · rename_i cp hcp
        split at hp
        · rename_i hd
          refine ⟨r, cp, hr, hcp, Or.inl ⟨hd, ?_⟩⟩
          exact (LineOutcome.emit.injEq _ _).mp hp.symm
        · rename_i dts orun hd
          split at hp
          · exact absurd hp (by simp)
          · rename_i op hop
            refine ⟨r, cp, hr, hcp, Or.inr ⟨dts, orun, op, hd, hop, ?_⟩⟩
            exact (LineOutcome.emit.injEq _ _).mp hp.symm
  · exact absurd hp (by simp)

/-- C3 counterexample: the line
`"Sản phẩm X có giá 100đ (Giảm 0% từ 200đ)"` is accepted and emits a
record with `discount_percent = 0` but `original_price ≠ price`, refuting
the biconditional. -/
theorem discount_iff_cex :
    processLine 1 "Sản phẩm X có giá 100đ (Giảm 0% từ 200đ)".data
      = .emit cexProductC3 ∧
    cexProductC3.discount_percent = 0 ∧
    cexProductC3.original_price ≠ cexProductC3.price := by decide

/-- C3 amended: when the accepted line has no discount clause, the
emitted record has `original_price = price` and `discount_percent = 0`
(so the biconditional holds for discount-free lines); a discount clause
copies its numbers verbatim, so the biconditional is not guaranteed in
general. -/
theorem parse_no_discount_defaults (pid : Nat) (line : List Char)
    (r : RawParse) (p : Product) (hr : reSearch (strip line) = some r)
    (hd : r.disc = none) (hp : processLine pid line = .emit p) :
    p.original_price = p.price ∧ p.discount_percent = 0 := by
  obtain ⟨r', cp, hr', hcp, hcase⟩ := processLine_emit_cases pid line p hp
  rw [hr] at hr'
  injection hr' with hrr
  subst hrr
  rcases hcase with ⟨-, rfl⟩ | ⟨dts, orun, op, hds, -, rfl⟩
  · simp [mkProduct]
  · rw [hds] at hd
    exact absurd hd (by simp)

theorem parse_no_discount_defaults_w :
    (mkProduct 1 "Tshirt chạy bộ AirRush Gradient".data 199000 199000 0).original_price
        = (mkProduct 1 "Tshirt chạy bộ AirRush Gradient".data 199000 199000 0).price ∧
    (mkProduct 1 "Tshirt chạy bộ AirRush Gradient".data 199000 199000 0).discount_percent = 0 :=
  parse_no_discount_defaults 1
    "Sản phẩm Tshirt chạy bộ AirRush Gradient có giá 199.000đ".data
    ⟨"Tshirt chạy bộ AirRush Gradient".data, "199.000".data, none⟩ _
    (by decide) (by decide) (by decide)

/-- C8 counterexample: the line
`"Sản phẩm Y có giá 100đ (Giảm 150% từ 50đ)"` is accepted and emits a
record with `original_price < price` and `discount_percent > 100`,
refuting both field bounds. -/
theorem price_bounds_cex :
    processLine 1 "Sản phẩm Y có giá 100đ (Giảm 150% từ 50đ)".data
      = .emit cexProductC8 ∧
    ¬ cexProductC8.price ≤ cexProductC8.original_price ∧
    ¬ cexProductC8.discount_percent ≤ 100 := by decide

/-- C8 amended: every emitted record has a non-negative integer price and
a non-negative integer discount percent; the bounds
`original_price ≥ price` and `discount_percent ≤ 100` hold whenever the
accepted line has no discount clause, but are not enforced when one is
present. -/
theorem parse_price_bounds (pid : Nat) (line : List Char) (p : Product)
    (hp : processLine pid line = .emit p) :
    0 ≤ p.price ∧ 0 ≤ p.discount_percent ∧
    (∀ r, reSearch (strip line) = some r → r.disc = none →
      p.price ≤ p.original_price ∧ p.discount_percent ≤ 100) := by
  obtain ⟨r', cp, hr', hcp, hcase⟩ := processLine_emit_cases pid line p hp
  rcases hcase with ⟨hd, rfl⟩ | ⟨dts, orun, op, hd, hop, rfl⟩
  · refine ⟨by simp [mkProduct], by simp [mkProduct], ?_⟩
    intro r hr _
    simp [mkProduct]
  · refine ⟨by simp [mkProduct], by simp [mkProduct], ?_⟩
    intro r hr hdn
    rw [hr'] at hr
    injection hr with hrr
    subst hrr
    rw [hd] at hdn
    exact absurd hdn (by simp)

theorem parse_price_bounds_w :
    0 ≤ (mkProduct 1 "Shorts thể thao nam".data 239000 239000 0).price ∧
    0 ≤ (mkProduct 1 "Shorts thể thao nam".data 239000 239000 0).discount_percent ∧
    (∀ r, reSearch (strip "Sản phẩm Shorts thể thao nam có giá 239.000đ".data)
        = some r → r.disc = none →
      (mkProduct 1 "Shorts thể thao nam".data 239000 239000 0).price
          ≤ (mkProduct 1 "Shorts thể thao nam".data 239000 239000 0).original_price ∧
      (mkProduct 1 "Shorts thể thao nam".data 239000 239000 0).discount_percent ≤ 100) :=
  parse_price_bounds 1 "Sản phẩm Shorts thể thao nam có giá 239.000đ".data _
    (by decide)

/-- C9: the concrete sample line parses to exactly the claimed record
(title, prices, discount percent and category), with the sequential id
`prod_0001` and the synthesized description. -/
theorem parse_example_line :
    processLine 1
      "Sản phẩm Áo Thun Nam Viet Devils - Bật Như Man có giá 329.000đ (Giảm 15% từ 389.000đ)".data
      = .emit
        { id := "prod_0001"
          title := "Áo Thun Nam Viet Devils - Bật Như Man"
          category := "Áo thun"
          price := 329000
          original_price := 389000
          discount_percent := 15
          short_description := "Áo Thun Nam Viet Devils - Bật Như Man"
          description := "Sản phẩm Áo Thun Nam Viet Devils - Bật Như Man thuộc danh mục Áo thun với giá 329,000đ" } := by
  decide

theorem processLine_emit_id (pid : Nat) (line : List Char) (p : Product)
    (hp : processLine pid line = .emit p) : p.id = prodId pid := by
  obtain ⟨r, cp, -, -, hcase⟩ := processLine_emit_cases pid line p hp
  rcases hcase with ⟨-, rfl⟩ | ⟨dts, orun, op, -, -, rfl⟩ <;> simp [mkProduct]

theorem processLine_skip_of_no_match (pid : Nat) (line : List Char)
    (h : grammarMatch line = false) : processLine pid line = .skip := by
  unfold grammarMatch at h
  unfold processLine processStripped
  by_cases hc : (!(strip line).isEmpty && markerCs.isPrefixOf (strip line)) = true
  · rw [if_pos hc]
    cases hrs : reSearch (strip line) with
    | none => simp
    | some r => rw [hc, hrs] at h; simp at h
  · rw [if_neg hc]

theorem runAux_ids :
    ∀ (ls : List (List Char)) (pid : Nat) (ps : List Product),
      runAux pid ls = some ps →
      ps.map (fun q => q.id) = (List.range ps.length).map (fun i => prodId (pid + i)) := by
  intro ls
  induction ls with
  | nil =>
    intro pid ps h
    injection h with h
    subst h
    simp
  | cons l ls ih =>
    intro pid ps h
    unfold runAux at h
    split at h
    · exact ih pid ps h
    · exact absurd h (by simp)
    · rename_i p hpl
      split at h
      · exact absurd h (by simp)
      · rename_i ps' hrec
        injection h with h
        subst h
        have hid := processLine_emit_id pid l p hpl
        have hrest := ih (pid + 1) ps' hrec
        simp only [List.map_cons, List.length_cons, List.range_succ_eq_map,
          List.map_map, hid, hrest]
        congr 1
        apply List.map_congr_left
        intro i _
        simp only [Function.comp_apply]
        exact congrArg prodId (by omega)

/-- C4: over any run, the emitted ids are exactly `"prod_"` followed by
the zero-padded indices 1, 2, 3, … in order with no gaps; a line that
does not match the grammar (blank, wrong marker, or marker present but
pattern failing) yields no record, no error, and no counter advance. -/
theorem parse_ids_sequential :
    (∀ lines ps, parse_products_from_text lines = some ps →
      ps.map (fun q => q.id) = (List.range ps.length).map (fun i => prodId (1 + i))) ∧
    (∀ pid line, grammarMatch line = false → processLine pid line = .skip) ∧
    (∀ pid line ls, grammarMatch line = false →
      runAux pid (line :: ls) = runAux pid ls) := by
  refine ⟨?_, ?_, ?_⟩
  · intro lines ps h
    exact runAux_ids lines 1 ps h
  · intro pid line h
    exact processLine_skip_of_no_match pid line h
  · intro pid line ls h
    simp [runAux, processLine_skip_of_no_match pid line h]

theorem parse_ids_sequential_w :
    processLine 1 "hello".data = .skip :=
  parse_ids_sequential.2.1 1 "hello".data (by decide)

/-! ## Claim theorems: the search path -/

theorem filterTopK_length_le (p : SMatch → Bool) :
    ∀ (k : Nat) (ms : List SMatch), 1 ≤ k → (filterTopK p k ms).length ≤ k := by
  intro k ms
  induction ms generalizing k with
  | nil => intro _; simp [filterTopK]
  | cons m ms ih =>
    intro hk
    unfold filterTopK
    by_cases hm : p m = true
    · rw [if_pos hm]
      by_cases hk1 : k ≤ 1
      · rw [if_pos hk1]; simpa using hk
      · rw [if_neg hk1]
        have h2 := ih (k - 1) (by omega)
        simp only [List.length_cons]
        omega
    · rw [if_neg hm]; exact ih k hk

theorem filterTopK_sublist (p : SMatch → Bool) :
    ∀ (k : Nat) (ms : List SMatch), List.Sublist (filterTopK p k ms) ms := by
  intro k ms
  induction ms generalizing k with
  | nil => simp [filterTopK]
  | cons m ms ih =>
    unfold filterTopK
    by_cases hm : p m = true
    · rw [if_pos hm]
      by_cases hk1 : k ≤ 1
      · rw [if_pos hk1]
        exact List.Sublist.cons₂ m (List.nil_sublist ms)
      · rw [if_neg hk1]
        exact List.Sublist.cons₂ m (ih (k - 1))
    · rw [if_neg hm]
      exact List.Sublist.cons m (ih k)

theorem filterTopK_mem (p : SMatch → Bool) :
    ∀ (k : Nat) (ms : List SMatch) (m : SMatch),
      m ∈ filterTopK p k ms → p m = true := by
  intro k ms
  induction ms generalizing k with
  | nil => intro m h; simp [filterTopK] at h
  | cons a ms ih =>
    intro m h
    unfold filterTopK at h
    by_cases ha : p a = true
    · rw [if_pos ha] at h
      by_cases hk1 : k ≤ 1
      · rw [if_pos hk1] at h
        simp at h
        subst h
        exact ha
      · rw [if_neg hk1] at h
        rcases List.mem_cons.mp h with rfl | h
        · exact ha
        · exact ih (k - 1) m h
    · rw [if_neg ha] at h
      exact ih k m h

/-- C2: for every query, requested `top_k` value `k ≥ 1` (the UI slider's
range starts at 1), and store reply, the pipeline requests `2 * k`
neighbours from the store, returns at most `k` results, each satisfying
the category filter (or the "All Categories" sentinel) and the inclusive
price bounds, as a sublist of the store's reply — so a score-descending
reply stays score-descending, with no re-ranking. -/
theorem search_filtered_topk (store : Nat → List SMatch) (k : Nat)
    (selCat : String) (lo hi : Int) (hk : 1 ≤ k) :
    (searchPipeline store k selCat lo hi).length ≤ k ∧
    (∀ m ∈ searchPipeline store k selCat lo hi,
      passesFilter selCat lo hi m = true) ∧
    List.Sublist (searchPipeline store k selCat lo hi) (store (2 * k)) ∧
    (List.Pairwise (fun a b => b.score ≤ a.score) (store (2 * k)) →
      List.Pairwise (fun a b => b.score ≤ a.score)
        (searchPipeline store k selCat lo hi)) :=
  ⟨filterTopK_length_le _ k _ hk,
   fun m hm => filterTopK_mem _ k _ m hm,
   filterTopK_sublist _ k _,
   fun hs => List.Pairwise.sublist (filterTopK_sublist _ k _) hs⟩

theorem search_filtered_topk_w :
    (searchPipeline sampleStore 1 "All Categories" 0 1000000).length ≤ 1 ∧
    (∀ m ∈ searchPipeline sampleStore 1 "All Categories" 0 1000000,
      passesFilter "All Categories" 0 1000000 m = true) ∧
    List.Sublist (searchPipeline sampleStore 1 "All Categories" 0 1000000)
      (sampleStore 2) ∧
    (List.Pairwise (fun a b => b.score ≤ a.score) (sampleStore 2) →
      List.Pairwise (fun a b => b.score ≤ a.score)
        (searchPipeline sampleStore 1 "All Categories" 0 1000000)) :=
  search_filtered_topk sampleStore 1 "All Categories" 0 1000000 (by decide)

/-! ## Claim theorems: the upload path -/

theorem upsert_nil (s : Store) : Store.upsert s [] = s := rfl

theorem upsert_append (s : Store) (l1 l2 : List UpsertRec) :
    Store.upsert s (l1 ++ l2) = Store.upsert (Store.upsert s l1) l2 := by
  unfold Store.upsert
  simp [List.foldl_append]

theorem syncLoop_spec (emb : String → List Int) (eo uo : Nat → Bool)
    (hu : ∀ n, uo n = true) :
    ∀ (ps : List Product) (i : Nat) (st : SyncSt), st.buf.length < 50 →
      ∃ nb : List (List UpsertRec),
        (syncLoop emb eo uo i ps st).buf.length < 50 ∧
        (syncLoop emb eo uo i ps st).store = Store.upsert st.store nb.flatten ∧
        (syncLoop emb eo uo i ps st).embeds = st.embeds + ps.length ∧
        (syncLoop emb eo uo i ps st).upserts = st.upserts + nb.length ∧
        (syncLoop emb eo uo i ps st).batches = st.batches ++ nb ∧
        (syncLoop emb eo uo i ps st).errs = st.errs + failsOf eo i ps ∧
        (∀ b ∈ nb, b.length = 50) ∧
        nb.flatten ++ (syncLoop emb eo uo i ps st).buf
          = st.buf ++ recsOf emb eo i ps := by
  intro ps
  induction ps with
  | nil =>
    intro i st h
    refine ⟨[], ?_, ?_, ?_, ?_, ?_, ?_, ?_, ?_⟩ <;>
      simp [syncLoop, recsOf, failsOf, upsert_nil, h]
  | cons p ps ih =>
    intro i st h
    have hloop : syncLoop emb eo uo i (p :: ps) st
        = syncLoop emb eo uo (i + 1) ps (syncStep emb eo uo i p st) := rfl
    by_cases heo : eo i = true
    · by_cases hfull : 50 ≤ st.buf.length + 1
      · -- the appended buffer reaches 50: it is flushed and emptied
        have hst : syncStep emb eo uo i p st =
            { st with
                buf := []
                store := Store.upsert st.store (st.buf ++ [mkVector emb p])
                embeds := st.embeds + 1
                upserts := st.upserts + 1
                batches := st.batches ++ [st.buf ++ [mkVector emb p]] } := by
          unfold syncStep
          rw [if_pos heo, if_pos (by simpa using hfull), if_pos (hu st.upserts)]
        obtain ⟨nb, ih1, ih2, ih3, ih4, ih5, ih6, ih7, ih8⟩ :=
          ih (i + 1) ({ st with
            buf := []
            store := Store.upsert st.store (st.buf ++ [mkVector emb p])
            embeds := st.embeds + 1
            upserts := st.upserts + 1
            batches := st.batches ++ [st.buf ++ [mkVector emb p]] }) (by simp)
        simp only at ih1 ih2 ih3 ih4 ih5 ih6 ih7 ih8
        rw [hloop, hst]
        refine ⟨(st.buf ++ [mkVector emb p]) :: nb, ih1, ?_, ?_, ?_, ?_, ?_, ?_, ?_⟩
        · rw [ih2, List.flatten_cons, ← upsert_append]
        · rw [ih3, List.length_cons]; omega
        · rw [ih4, List.length_cons]; omega
        · rw [ih5]; simp
        · rw [ih6]
          have hre : failsOf eo i (p :: ps) = failsOf eo (i + 1) ps := by
            simp [failsOf, heo]
          rw [hre]
        · intro b hb
          rcases List.mem_cons.mp hb with rfl | hb
          · simp only [List.length_append, List.length_cons, List.length_nil]
            omega
          · exact ih7 b hb
        · rw [List.flatten_cons, List.append_assoc, ih8]
          simp [recsOf, heo]
      · -- the appended buffer stays below 50: no flush
        have hst : syncStep emb eo uo i p st =
            { st with
                buf := st.buf ++ [mkVector emb p]
                embeds := st.embeds + 1 } := by
          unfold syncStep
          rw [if_pos heo, if_neg (by simpa using hfull)]
        obtain ⟨nb, ih1, ih2, ih3, ih4, ih5, ih6, ih7, ih8⟩ :=
          ih (i + 1) ({ st with
            buf := st.buf ++ [mkVector emb p]
            embeds := st.embeds + 1 }) (by simp; omega)
        simp only at ih1 ih2 ih3 ih4 ih5 ih6 ih7 ih8
        rw [hloop, hst]
        refine ⟨nb, ih1, ih2, ?_, ih4, ih5, ?_, ih7, ?_⟩
        · rw [ih3, List.length_cons]; omega
        · rw [ih6]
          have hre : failsOf eo i (p :: ps) = failsOf eo (i + 1) ps := by
            simp [failsOf, heo]
          rw [hre]
        · rw [ih8]
          simp [recsOf, heo]
    · -- the embedding call fails: report and continue
      have heo' : eo i = false := bool_off _ heo
      have hst : syncStep emb eo uo i p st =
          { st with embeds := st.embeds + 1, errs := st.errs + 1 } := by
        unfold syncStep
        rw [if_neg heo]
      obtain ⟨nb, ih1, ih2, ih3, ih4, ih5, ih6, ih7, ih8⟩ :=
        ih (i + 1) ({ st with embeds := st.embeds + 1, errs := st.errs + 1 })
          (by simpa using h)
      simp only at ih1 ih2 ih3 ih4 ih5 ih6 ih7 ih8
      rw [hloop, hst]
      refine ⟨nb, ih1, ih2, ?_, ih4, ih5, ?_, ih7, ?_⟩
      · rw [ih3, List.length_cons]; omega
      · rw [ih6]
        have hre : failsOf eo i (p :: ps) = 1 + failsOf eo (i + 1) ps := by
          simp [failsOf, heo']
        rw [hre]
        omega
      · rw [ih8]
        simp [recsOf, heo']

theorem sync_run_spec (emb : String → List Int) (eo uo : Nat → Bool)
    (ps : List Product) (store : Store) (hu : ∀ n, uo n = true)
    (hc : Store.count store = 0) :
    ∃ r, generate_and_upsert_embeddings emb eo uo ps store = some r ∧
      r.buf = [] ∧
      r.embeds = ps.length ∧
      r.errs = failsOf eo 0 ps ∧
      r.store = Store.upsert store (recsOf emb eo 0 ps) ∧
      r.batches.flatten = recsOf emb eo 0 ps ∧
      (∀ b ∈ r.batches.dropLast, b.length = 50) ∧
      (∀ b ∈ r.batches, 1 ≤ b.length ∧ b.length ≤ 50) := by
  unfold generate_and_upsert_embeddings
  rw [if_neg (by omega)]
  obtain ⟨nb, h1, h2, h3, h4, h5, h6, h7, h8⟩ :=
    syncLoop_spec emb eo uo hu ps 0
      { buf := [], store := store, embeds := 0, upserts := 0, batches := [], errs := 0 }
      (by simp)
  simp only at h1 h2 h3 h4 h5 h6 h7 h8
  unfold syncFinish
  by_cases hb : (syncLoop emb eo uo 0 ps
      { buf := [], store := store, embeds := 0, upserts := 0, batches := [],
        errs := 0 }).buf.isEmpty = true
  · rw [if_pos hb]
    have hbe := List.isEmpty_iff.mp hb
    have hfl : nb.flatten = recsOf emb eo 0 ps := by
      rw [hbe] at h8
      simpa using h8
    refine ⟨_, rfl, hbe, by simpa using h3, by simpa using h6, ?_, ?_, ?_, ?_⟩
    · rw [h2, hfl]
    · rw [h5]
      simpa using hfl
    · intro b hmem
      rw [h5] at hmem
      simp only [List.nil_append] at hmem
      exact h7 b ((List.dropLast_sublist nb).subset hmem)
    · intro b hmem
      rw [h5] at hmem
      simp only [List.nil_append] at hmem
      have := h7 b hmem
      omega
  · rw [if_neg hb, if_pos (hu _)]
    refine ⟨_, rfl, rfl, by simpa using h3, by simpa using h6, ?_, ?_, ?_, ?_⟩
    · simp only
      rw [h2, ← upsert_append]
      congr 1
    · simp only
      rw [h5]
      simp only [List.nil_append, List.flatten_append, List.flatten_cons,
        List.flatten_nil, List.append_nil]
      simpa using h8
    · simp only
      rw [h5]
      simp only [List.nil_append, List.dropLast_concat]
      exact h7
    · simp only
      rw [h5]
      intro b hmem
      simp only [List.nil_append] at hmem
      rcases List.mem_append.mp hmem with hmem | hmem
      · have := h7 b hmem
        omega
      · have hbne : 1 ≤ (syncLoop emb eo uo 0 ps
            { buf := [], store := store, embeds := 0, upserts := 0,
              batches := [], errs := 0 }).buf.length := by
          rcases hnil : (syncLoop emb eo uo 0 ps
            { buf := [], store := store, embeds := 0, upserts := 0,
              batches := [], errs := 0 }).buf with - | ⟨a, t⟩
          · rw [hnil] at hb; simp at hb
          · simp
        rcases List.mem_singleton.mp hmem with rfl
        omega

/-- C5: the upload path is idempotent by count: whenever the store
reports a positive vector count the sync performs zero embedding calls
and zero upserts and returns at once with the store untouched; hence a
second sync run after a first one that left the count positive does no
work. -/
theorem sync_skip_if_nonempty :
    (∀ emb eo uo ps store, 0 < Store.count store →
      generate_and_upsert_embeddings emb eo uo ps store =
        some { buf := [], store := store, embeds := 0, upserts := 0,
               batches := [], errs := 0 }) ∧
    (∀ emb eo uo ps store r,
      generate_and_upsert_embeddings emb eo uo ps store = some r →
      0 < Store.count r.store →
      generate_and_upsert_embeddings emb eo uo ps r.store =
        some { buf := [], store := r.store, embeds := 0, upserts := 0,
               batches := [], errs := 0 }) := by
  have part1 : ∀ emb eo uo ps store, 0 < Store.count store →
      generate_and_upsert_embeddings emb eo uo ps store =
        some { buf := [], store := store, embeds := 0, upserts := 0,
               batches := [], errs := 0 } := by
    intro emb eo uo ps store hpos
    unfold generate_and_upsert_embeddings
    rw [if_pos hpos]
  exact ⟨part1, fun emb eo uo ps store r _ hpos => part1 emb eo uo ps r.store hpos⟩

theorem sync_skip_if_nonempty_w :
    generate_and_upsert_embeddings (fun _ => []) (fun _ => true) (fun _ => true)
      [] storeOne =
      some { buf := [], store := storeOne, embeds := 0, upserts := 0,
             batches := [], errs := 0 } :=
  sync_skip_if_nonempty.1 _ _ _ _ _ (by decide)

/-- C6 counterexample: with a one-product catalog whose embedding
succeeds and whose (final-flush) upsert fails, the run aborts with an
uncaught exception rather than continuing — the final flush sits outside
the per-item handler. -/
theorem sync_fault_isolation_cex :
    generate_and_upsert_embeddings (fun _ => []) (fun _ => true) (fun _ => false)
      [sampleProduct] ⟨[]⟩ = none := by decide

/-- C6 amended: a failure of an embedding call for a single record does
not abort the run: the failure is reported, the record is skipped with no
retry, processing continues, and — provided every upsert call succeeds —
the run completes with exactly the embed-successful records uploaded, one
embedding attempt per catalog record and one reported failure per failed
embedding. A failed in-loop batch upsert, however, leaves the batch
buffered for the next flush, and a failed final flush aborts the run. -/
theorem sync_embed_fault_isolation (emb : String → List Int)
    (eo uo : Nat → Bool) (ps : List Product) (store : Store)
    (hu : ∀ n, uo n = true) (hc : Store.count store = 0) :
    ∃ r, generate_and_upsert_embeddings emb eo uo ps store = some r ∧
      r.embeds = ps.length ∧
      r.errs = failsOf eo 0 ps ∧
      r.batches.flatten = recsOf emb eo 0 ps ∧
      r.store = Store.upsert store (recsOf emb eo 0 ps) := by
  obtain ⟨r, hgen, -, h3, h4, h5, h6, -, -⟩ :=
    sync_run_spec emb eo uo ps store hu hc
  exact ⟨r, hgen, h3, h4, h6, h5⟩

theorem sync_embed_fault_isolation_w :
    ∃ r, generate_and_upsert_embeddings (fun _ => [7]) (fun i => decide (i ≠ 0))
        (fun _ => true) [sampleProduct, sampleProduct] ⟨[]⟩ = some r ∧
      r.embeds = 2 ∧
      r.errs = failsOf (fun i => decide (i ≠ 0)) 0 [sampleProduct, sampleProduct] ∧
      r.batches.flatten
        = recsOf (fun _ => [7]) (fun i => decide (i ≠ 0)) 0 [sampleProduct, sampleProduct] ∧
      r.store = Store.upsert ⟨[]⟩
        (recsOf (fun _ => [7]) (fun i => decide (i ≠ 0)) 0 [sampleProduct, sampleProduct]) := by
  have h := sync_embed_fault_isolation (fun _ => [7]) (fun i => decide (i ≠ 0))
    (fun _ => true) [sampleProduct, sampleProduct] ⟨[]⟩ (fun _ => rfl) (by decide)
  simpa using h

/-- C7: with every upsert call succeeding, the upload buffers records
and flushes whenever the buffer reaches exactly 50 (each in-loop flush is
a batch of exactly 50, i.e. every flushed batch except possibly the last
has length 50), the final partial batch of fewer than 50 records is
flushed at end-of-loop, and every successfully embedded record lands in
exactly one flushed batch (their concatenation, in order). -/
theorem sync_batches_of_fifty (emb : String → List Int)
    (eo uo : Nat → Bool) (ps : List Product) (store : Store)
    (hu : ∀ n, uo n = true) (hc : Store.count store = 0) :
    ∃ r, generate_and_upsert_embeddings emb eo uo ps store = some r ∧
      r.batches.flatten = recsOf emb eo 0 ps ∧
      (∀ b ∈ r.batches.dropLast, b.length = 50) ∧
      (∀ b ∈ r.batches, 1 ≤ b.length ∧ b.length ≤ 50) ∧
      r.buf = [] := by
  obtain ⟨r, hgen, h2, -, -, -, h6, h7, h8⟩ :=
    sync_run_spec emb eo uo ps store hu hc
  exact ⟨r, hgen, h6, h7, h8, h2⟩

theorem sync_batches_of_fifty_w :
    ∃ r, generate_and_upsert_embeddings (fun _ => [3]) (fun _ => true)
        (fun _ => true) [sampleProduct] ⟨[]⟩ = some r ∧
      r.batches.flatten = recsOf (fun _ => [3]) (fun _ => true) 0 [sampleProduct] ∧
      (∀ b ∈ r.batches.dropLast, b.length = 50) ∧
      (∀ b ∈ r.batches, 1 ≤ b.length ∧ b.length ≤ 50) ∧
      r.buf = [] :=
  sync_batches_of_fifty (fun _ => [3]) (fun _ => true) (fun _ => true)
    [sampleProduct] ⟨[]⟩ (fun _ => rfl) (by decide)

end AICourse
